import Mathlib

/-!
Verification development for the capacity-manager forecasting engine
(`capacity_manager/forecasting/predictor.py`) and the sibling
95th-percentile billing routine (`capacity_manager/cost_calculator/calculator.py`).

Shallow embedding conventions:
* Python floats are modelled as `ℚ`, except where a value flows through
  `math.sqrt` / `statistics.stdev`; those values live in `ℝ` via `Real.sqrt`.
* Timestamps are modelled as rational epoch seconds; `timedelta(days=d)`
  adds `86400 * d` seconds and `(dt - t0).total_seconds() / 86400` becomes
  plain rational arithmetic.
* Python's stable `sorted(..., key=lambda x: x[0])` is modelled by
  `List.insertionSort` on the timestamp component (a stable sort).
* A Python function that can raise (`ZeroDivisionError` in
  `_linear_regression`, `StatisticsError` for a mean of an empty list)
  is modelled with `Option`, `none` being the raised exception.
-/

/-- One sample or forecast timestamp/value record. `ForecastPoint` from the
dataclass in `predictor.py`: bounds are real since they involve `math.sqrt`. -/
structure ForecastPoint where
  timestamp : ℚ
  predicted_utilization : ℚ
  confidence_lower : ℝ
  confidence_upper : ℝ

/-- `ForecastResult` dataclass from `predictor.py`, with the dataclass defaults. -/
structure ForecastResult where
  channel_name : String
  current_utilization : ℚ
  forecast_points : List ForecastPoint
  days_to_warning : Option ℤ := none
  days_to_critical : Option ℤ := none
  days_to_capacity : Option ℤ := none
  trend_strength : ℚ := 0
  forecast_confidence : ℝ := 0
  is_accelerating : Bool := false
  seasonal_pattern : Option String := none

/-- The three thresholds held by `CapacityPredictor.__init__`. -/
structure PredictorConfig where
  warning_threshold : ℚ
  critical_threshold : ℚ
  capacity_threshold : ℚ

/-- The default `CapacityPredictor` configuration (70 / 85 / 95). -/
def defaultConfig : PredictorConfig := ⟨70, 85, 95⟩

/-- `statistics.mean` on a nonempty list (total here; callers guard emptiness). -/
def statMean (l : List ℚ) : ℚ := l.sum / l.length

/-- `statistics.variance` (sample variance, divide by `n - 1`). -/
def sampleVariance (l : List ℚ) : ℚ :=
  (l.map (fun v => (v - statMean l) ^ 2)).sum / ((l.length - 1 : ℕ) : ℚ)

/-- Python `int()` applied to a rational: truncation toward zero. -/
def pyInt (q : ℚ) : ℤ := if 0 ≤ q then ⌊q⌋ else -⌊-q⌋

/-- `CapacityPredictor._find_threshold_crossing`. -/
def findThresholdCrossing (currentValue rate threshold : ℚ) : Option ℤ :=
  if threshold ≤ currentValue then some 0
  else if rate ≤ 0 then none
  else
    let days := (threshold - currentValue) / rate
    if 0 < days then some (pyInt days) else none

/-- `CapacityPredictor._detect_acceleration`. -/
def detectAcceleration (values : List ℚ) : Bool :=
  if values.length < 6 then false
  else
    let mid := values.length / 2
    let firstHalf := values.take mid
    let secondHalf := values.drop mid
    let firstRate := (firstHalf.getLastD 0 - firstHalf.headD 0) / (firstHalf.length : ℚ)
    let secondRate := (secondHalf.getLastD 0 - secondHalf.headD 0) / (secondHalf.length : ℚ)
    decide (firstRate * (1.2 : ℚ) < secondRate)

/-- Modelled from the claim's words for C7 (not from the source): the split is
described as "index len//2 into first and second halves such that the first
half gets the extra element when the length is odd", so here the first half
takes `(len + 1) / 2` elements; rates and the 1.2 margin are as described. -/
def claimAcceleration (values : List ℚ) : Bool :=
  if values.length < 6 then false
  else
    let mid := (values.length + 1) / 2
    let firstHalf := values.take mid
    let secondHalf := values.drop mid
    let firstRate := (firstHalf.getLastD 0 - firstHalf.headD 0) / (firstHalf.length : ℚ)
    let secondRate := (secondHalf.getLastD 0 - secondHalf.headD 0) / (secondHalf.length : ℚ)
    decide (firstRate * (1.2 : ℚ) < secondRate)

/-- `CostCalculator._calculate_95th_percentile`: sort ascending, take the value
at index `int(n * 0.95)`, clamped to the last index; `0.0` on empty input. -/
def calculate95thPercentile (samples : List ℚ) : ℚ :=
  if samples = [] then 0
  else
    let sortedSamples := samples.insertionSort (fun a b => a ≤ b)
    let percentileIndex := (⌊(samples.length : ℚ) * (0.95 : ℚ)⌋).toNat
    let idx := if sortedSamples.length ≤ percentileIndex then sortedSamples.length - 1
               else percentileIndex
    sortedSamples.getD idx 0

/-- Python `sorted(historical_data, key=lambda x: x[0])`: stable sort by timestamp. -/
def sortData (data : List (ℚ × ℚ)) : List (ℚ × ℚ) :=
  data.insertionSort (fun p q => p.1 ≤ q.1)

/-- Elapsed days from the first (sorted) sample:
`(dt - start_time).total_seconds() / 86400`. -/
def xValuesOf (data : List (ℚ × ℚ)) : List ℚ :=
  let sorted := sortData data
  sorted.map (fun p => (p.1 - (sorted.headD (0, 0)).1) / 86400)

/-- Utilization values in timestamp order. -/
def yValuesOf (data : List (ℚ × ℚ)) : List ℚ :=
  (sortData data).map Prod.snd

/-- `CapacityPredictor._linear_regression`; `none` models the
`ZeroDivisionError` raised when `n * sum_x2 - sum_x * sum_x` is zero. -/
def linearRegression (x y : List ℚ) : Option (ℚ × ℚ) :=
  let n : ℚ := (x.length : ℚ)
  let sumX := x.sum
  let sumY := y.sum
  let sumXY := ((x.zip y).map (fun p => p.1 * p.2)).sum
  let sumX2 := (x.map (fun xi => xi * xi)).sum
  if n * sumX2 - sumX * sumX = 0 then none
  else
    let m := (n * sumXY - sumX * sumY) / (n * sumX2 - sumX * sumX)
    some (m, (sumY - m * sumX) / n)

/-- `CapacityPredictor._calculate_r_squared`. -/
def calcRSquared (x y : List ℚ) (m b : ℚ) : ℚ :=
  let yMean := statMean y
  let ssTot := (y.map (fun yi => (yi - yMean) ^ 2)).sum
  let ssRes := ((x.zip y).map (fun p => (p.2 - (m * p.1 + b)) ^ 2)).sum
  if ssTot = 0 then 0 else 1 - ssRes / ssTot

/-- `CapacityPredictor._calculate_std_error`: `sqrt` of the mean squared residual. -/
noncomputable def calcStdError (x y : List ℚ) (m b : ℚ) : ℝ :=
  let residuals := (x.zip y).map (fun p => p.2 - (m * p.1 + b))
  Real.sqrt ((((residuals.map (fun r => r ^ 2)).sum / (residuals.length : ℚ)) : ℚ) : ℝ)

/-- Per-day confidence half-width of the linear forecast:
`std_error * math.sqrt(1 + day / len(x_values))`. -/
noncomputable def linearWidth (x y : List ℚ) (m b : ℚ) (day : ℕ) : ℝ :=
  calcStdError x y m b * Real.sqrt (((1 + (day : ℚ) / (x.length : ℚ)) : ℚ) : ℝ)

/-- Per-day confidence half-width of the exponential-smoothing forecast:
`sqrt(variance) * sqrt(day)` with variance 0 when `len(values) <= 2`. -/
noncomputable def expWidth (values : List ℚ) (day : ℕ) : ℝ :=
  Real.sqrt (((if 2 < values.length then sampleVariance values else 0) : ℚ) : ℝ) *
    Real.sqrt (day : ℝ)

/-- Construction of a `ForecastPoint` shared verbatim by the linear and the
exponential-smoothing loops: clamp the prediction to `[0, 100]`, set
`lower = max(0, predicted - 2 * width)` and `upper = min(100, predicted + 2 * width)`. -/
noncomputable def mkForecastPoint (ts raw : ℚ) (w : ℝ) : ForecastPoint :=
  { timestamp := ts
    predicted_utilization := max 0 (min 100 raw)
    confidence_lower := max 0 ((raw : ℝ) - 2 * w)
    confidence_upper := min 100 ((raw : ℝ) + 2 * w) }

/-- The seasonal loop's point construction: add the seasonal offset to the
(already clamped) trend prediction and to both bounds, then clamp again. -/
noncomputable def seasonalAdjust (p : ForecastPoint) (adj : ℚ) : ForecastPoint :=
  { timestamp := p.timestamp
    predicted_utilization := max 0 (min 100 (p.predicted_utilization + adj))
    confidence_lower := max 0 (p.confidence_lower + (adj : ℝ))
    confidence_upper := min 100 (p.confidence_upper + (adj : ℝ)) }

/-- `CapacityPredictor._empty_forecast`. -/
def emptyForecast (name : String) (current : ℚ) : ForecastResult :=
  { channel_name := name
    current_utilization := current
    forecast_points := []
    forecast_confidence := 0
    trend_strength := 0 }

/-- `CapacityPredictor.forecast_linear`; `none` models the uncaught
`ZeroDivisionError` escaping from `_linear_regression`. -/
noncomputable def forecastLinear (cfg : PredictorConfig) (data : List (ℚ × ℚ))
    (forecastDays : ℕ) : Option ForecastResult :=
  if data.length < 2 then some (emptyForecast ("N/A") 0)
  else
    let x := xValuesOf data
    let y := yValuesOf data
    match linearRegression x y with
    | none => none
    | some (m, b) =>
      let trendStrength := calcRSquared x y m b
      let rSquared := calcRSquared x y m b
      let lastX := x.getLastD 0
      let currentUtil := y.getLastD 0
      let lastT := ((sortData data).getLastD (0, 0)).1
      some
        { channel_name := ""
          current_utilization := currentUtil
          forecast_points :=
            (List.range forecastDays).map (fun i =>
              let day : ℕ := i + 1
              mkForecastPoint (lastT + 86400 * (day : ℚ))
                (m * (lastX + (day : ℚ)) + b)
                (linearWidth x y m b day))
          days_to_warning := findThresholdCrossing currentUtil m cfg.warning_threshold
          days_to_critical := findThresholdCrossing currentUtil m cfg.critical_threshold
          days_to_capacity := findThresholdCrossing currentUtil m cfg.capacity_threshold
          trend_strength := trendStrength
          forecast_confidence := (rSquared : ℝ)
          is_accelerating := detectAcceleration y
          seasonal_pattern := none }

/-- `CapacityPredictor.forecast_exponential_smoothing` (Holt's method,
`beta = 0.1`); raises nothing, so it returns a plain result. -/
noncomputable def forecastExponentialSmoothing (cfg : PredictorConfig)
    (data : List (ℚ × ℚ)) (forecastDays : ℕ) (alpha : ℚ) : ForecastResult :=
  if data.length < 2 then emptyForecast ("N/A") 0
  else
    let values := yValuesOf data
    let init : ℚ × ℚ :=
      (values.headD 0, if 1 < values.length then values.getD 1 0 - values.getD 0 0 else 0)
    let lt :=
      (values.drop 1).foldl
        (fun lt v =>
          let newLevel := alpha * v + (1 - alpha) * (lt.1 + lt.2)
          (newLevel, (0.1 : ℚ) * (newLevel - lt.1) + (1 - (0.1 : ℚ)) * lt.2))
        init
    let level := lt.1
    let trend := lt.2
    let currentUtil := values.getLastD 0
    { channel_name := ""
      current_utilization := currentUtil
      forecast_points :=
        (List.range forecastDays).map (fun i =>
          let day : ℕ := i + 1
          mkForecastPoint (((sortData data).getLastD (0, 0)).1 + 86400 * (day : ℚ))
            (level + (day : ℚ) * trend)
            (expWidth values day))
      days_to_warning :=
        if 0 < trend then findThresholdCrossing currentUtil trend cfg.warning_threshold
        else none
      days_to_critical :=
        if 0 < trend then findThresholdCrossing currentUtil trend cfg.critical_threshold
        else none
      days_to_capacity :=
        if 0 < trend then findThresholdCrossing currentUtil trend cfg.capacity_threshold
        else none
      trend_strength := min (|trend| / 10) 1
      forecast_confidence :=
        if 2 < values.length then
          1 / (1 + Real.sqrt ((sampleVariance values : ℚ) : ℝ) / 10)
        else (0.5 : ℝ)
      is_accelerating := detectAcceleration values
      seasonal_pattern := none }

/-- Moving-average trend of `_seasonal_decomposition`: centered window of
half-width `period // 2`, clipped to the sequence bounds. -/
def movingAvgTrend (values : List ℚ) (period : ℕ) : List ℚ :=
  let hp := period / 2
  (List.range values.length).map (fun i =>
    let s := i - hp
    let e := min values.length (i + hp + 1)
    statMean ((values.drop s).take (e - s)))

/-- The detrended series `value - trend`. -/
def detrendedOf (values : List ℚ) (period : ℕ) : List ℚ :=
  values.zipWith (fun v t => v - t) (movingAvgTrend values period)

/-- Raw per-phase seasonal averages: for each `i < period`, the mean of the
detrended values at indices `i, i + period, i + 2 * period, ...` (0 when empty). -/
def seasonalRaw (values : List ℚ) (period : ℕ) : List ℚ :=
  let detrended := detrendedOf values period
  (List.range period).map (fun i =>
    let positions :=
      ((List.range detrended.length).filter
        (fun j => decide (i ≤ j ∧ (j - i) % period = 0))).map (fun j => detrended.getD j 0)
    if positions = [] then 0 else statMean positions)

/-- `CapacityPredictor._seasonal_decomposition`; `none` models the
`StatisticsError` from `statistics.mean([])` when `period = 0`. -/
def seasonalDecomposition (values : List ℚ) (period : ℕ) :
    Option (List ℚ × List ℚ) :=
  if period = 0 then none
  else
    let trend := movingAvgTrend values period
    let raw := seasonalRaw values period
    let seasonalMean := statMean raw
    some (trend, raw.map (fun s => s - seasonalMean))

/-- The `(timestamp, trend_value)` series handed to `forecast_linear` by
`forecast_with_seasonality`. -/
def trendPairs (data : List (ℚ × ℚ)) (period : ℕ) : List (ℚ × ℚ) :=
  let sorted := sortData data
  List.zipWith (fun p t => (p.1, t)) sorted (movingAvgTrend (sorted.map Prod.snd) period)

open Classical in
/-- `CapacityPredictor.forecast_with_seasonality`. -/
noncomputable def forecastWithSeasonality (cfg : PredictorConfig)
    (data : List (ℚ × ℚ)) (forecastDays period : ℕ) : Option ForecastResult :=
  if data.length < period * 2 then forecastLinear cfg data forecastDays
  else
    let sorted := sortData data
    match seasonalDecomposition (sorted.map Prod.snd) period with
    | none => none
    | some (trend, seasonal) =>
      match forecastLinear cfg
        (List.zipWith (fun p t => (p.1, t)) sorted trend) forecastDays with
      | none => none
      | some trendForecast =>
        let pts := trendForecast.forecast_points.enum.map (fun ip =>
          seasonalAdjust ip.2 (seasonal.getD (ip.1 % seasonal.length) 0))
        let seasonalStrength : ℝ :=
          if 1 < seasonal.length then Real.sqrt ((sampleVariance seasonal : ℚ) : ℝ) else 0
        let pat : Option String :=
          if 5 < seasonalStrength then
            (if period = 7 then some ("weekly")
             else if period = 30 then some ("monthly")
             else some (toString period ++ "-day cycle"))
          else none
        some { trendForecast with forecast_points := pts, seasonal_pattern := pat }

/-- The forecast-point list of an optional result (empty when the call raised). -/
def pointsOf (r : Option ForecastResult) : List ForecastPoint :=
  r.elim [] ForecastResult.forecast_points

/-- The clamped width stored in a forecast point. -/
def storedWidth (p : ForecastPoint) : ℝ := p.confidence_upper - p.confidence_lower

/-- The scalar fields of a result that `forecast_with_seasonality` copies
unchanged from the trend forecast. -/
def resultCore (r : ForecastResult) :
    Option ℤ × Option ℤ × Option ℤ × ℚ × ℝ × ℚ × Bool :=
  (r.days_to_warning, r.days_to_critical, r.days_to_capacity,
   r.trend_strength, r.forecast_confidence, r.current_utilization, r.is_accelerating)

/-! ### Shared helper lemmas -/

lemma mem_getLastD {α : Type} (l : List α) (d : α) (h : l ≠ []) : l.getLastD d ∈ l := by
  induction l generalizing d with
  | nil => exact absurd rfl h
  | cons a t ih =>
    rw [List.getLastD_cons]
    cases t with
    | nil => simp
    | cons b u => exact List.mem_cons_of_mem a (ih a (by simp))

lemma sum_map_sub_const (l : List ℚ) (c : ℚ) :
    (l.map (fun v => v - c)).sum = l.sum - l.length * c := by
  induction l with
  | nil => simp
  | cons a t ih =>
    simp only [List.map_cons, List.sum_cons, ih, List.length_cons]
    push_cast
    ring

lemma sum_of_const (l : List ℚ) (c : ℚ) (h : ∀ v ∈ l, v = c) :
    l.sum = l.length * c := by
  induction l with
  | nil => simp
  | cons a t ih =>
    have ha : a = c := h a (by simp)
    have ht : t.sum = t.length * c := ih (fun v hv => h v (by simp [hv]))
    simp only [List.sum_cons, ha, ht, List.length_cons]
    push_cast
    ring

lemma sum_affine (l : List ℚ) (c d e : ℚ) :
    (l.map (fun a => c * (a * a) + d * a + e)).sum
      = c * (l.map (fun a => a * a)).sum + d * l.sum + e * l.length := by
  induction l with
  | nil => simp
  | cons a t ih =>
    simp only [List.map_cons, List.sum_cons, ih, List.length_cons]
    push_cast
    ring

lemma inner_sub_sq (l : List ℚ) (a : ℚ) :
    (l.map (fun b => (a - b) * (a - b))).sum
      = (l.length : ℚ) * (a * a) + (-(2 * l.sum)) * a + (l.map (fun b => b * b)).sum := by
  induction l with
  | nil => simp
  | cons b t ih =>
    simp only [List.map_cons, List.sum_cons, ih, List.length_cons]
    push_cast
    ring

lemma double_sub_sq (l : List ℚ) :
    (l.map (fun a => (l.map (fun b => (a - b) * (a - b))).sum)).sum
      = 2 * ((l.length : ℚ) * (l.map (fun a => a * a)).sum - l.sum * l.sum) := by
  have h : l.map (fun a => (l.map (fun b => (a - b) * (a - b))).sum)
      = l.map (fun a => (l.length : ℚ) * (a * a) + (-(2 * l.sum)) * a
          + (l.map (fun b => b * b)).sum) := by
    apply List.map_congr_left
    intro a _
    exact inner_sub_sq l a
  rw [h, sum_affine]
  ring

lemma regression_denom_pos (l : List ℚ) (a b : ℚ) (ha : a ∈ l) (hb : b ∈ l)
    (hab : a ≠ b) :
    0 < (l.length : ℚ) * (l.map (fun v => v * v)).sum - l.sum * l.sum := by
  have hterm : 0 < (a - b) * (a - b) := mul_self_pos.mpr (sub_ne_zero.mpr hab)
  have hinner : ∀ x, (0 : ℚ) ≤ (l.map (fun y => (x - y) * (x - y))).sum := by
    intro x
    apply List.sum_nonneg
    intro t ht
    obtain ⟨y, _, rfl⟩ := List.mem_map.mp ht
    exact mul_self_nonneg _
  have h2 : (a - b) * (a - b) ≤ (l.map (fun y => (a - y) * (a - y))).sum := by
    apply List.single_le_sum
    · intro t ht
      obtain ⟨y, _, rfl⟩ := List.mem_map.mp ht
      exact mul_self_nonneg _
    · exact List.mem_map_of_mem _ hb
  have h3 : (l.map (fun y => (a - y) * (a - y))).sum
      ≤ (l.map (fun x => (l.map (fun y => (x - y) * (x - y))).sum)).sum := by
    apply List.single_le_sum
    · intro t ht
      obtain ⟨x, _, rfl⟩ := List.mem_map.mp ht
      exact hinner x
    · exact List.mem_map_of_mem _ ha
  have hd := double_sub_sq l
  linarith

lemma zip_const_snd_sum (x y : List ℚ) (c : ℚ) (hlen : x.length = y.length)
    (hy : ∀ v ∈ y, v = c) :
    ((x.zip y).map (fun p => p.1 * p.2)).sum = c * x.sum := by
  induction x generalizing y with
  | nil => simp
  | cons a t ih =>
    cases y with
    | nil => simp at hlen
    | cons b u =>
      have hb : b = c := hy b (by simp)
      have ht : ((t.zip u).map (fun p => p.1 * p.2)).sum = c * t.sum :=
        ih u (by simpa using hlen) (fun v hv => hy v (by simp [hv]))
      simp only [List.zip_cons_cons, List.map_cons, List.sum_cons, ht, hb, List.sum_cons]
      ring

/-! ### C1: threshold crossing -/

/-- C1 (counterexample): with current = 69, rate = 2, threshold = 70 the floor
`⌊(70 - 69) / 2⌋ = 0` is ≤ 0, yet `_find_threshold_crossing` returns 0
(`days = 0.5 > 0`, so `int(days)` is returned), not `none` as the claim states. -/
theorem C1_floor_nonpositive_counterexample :
    ⌊((70 : ℚ) - 69) / 2⌋ ≤ 0 ∧ findThresholdCrossing 69 2 70 = some 0 := by
  constructor
  · norm_num
  · norm_num [findThresholdCrossing, pyInt]

/-- C1 (amended): days-to-threshold returns 0 when current ≥ threshold, `none`
when current < threshold and rate ≤ 0, and otherwise always returns
`⌊(threshold - current) / rate⌋`, which is ≥ 0: the quotient is strictly
positive in that branch, so the `none`-on-nonpositive guard never fires. -/
theorem C1_days_to_threshold (current rate threshold : ℚ) :
    (threshold ≤ current → findThresholdCrossing current rate threshold = some 0) ∧
    (current < threshold → rate ≤ 0 →
      findThresholdCrossing current rate threshold = none) ∧
    (current < threshold → 0 < rate →
      findThresholdCrossing current rate threshold
          = some ⌊(threshold - current) / rate⌋ ∧
        0 ≤ ⌊(threshold - current) / rate⌋) := by
  refine ⟨fun h => ?_, fun h1 h2 => ?_, fun h1 h2 => ?_⟩
  · simp [findThresholdCrossing, h]
  · simp [findThresholdCrossing, not_le.mpr h1, h2]
  · have hdays : 0 < (threshold - current) / rate := div_pos (by linarith) h2
    have hpy : pyInt ((threshold - current) / rate) = ⌊(threshold - current) / rate⌋ :=
      if_pos hdays.le
    refine ⟨?_, Int.floor_nonneg.mpr hdays.le⟩
    simp [findThresholdCrossing, not_le.mpr h1, not_le.mpr h2, hdays, hpy]

/-- C1 (witness): the spec's own example, current = 50, rate = 2, threshold = 70,
lands in the third branch and returns `⌊20 / 2⌋ = 10`. -/
theorem C1_days_to_threshold_witness :
    ((50 : ℚ) < 70 ∧ (0 : ℚ) < 2) ∧
      findThresholdCrossing 50 2 70 = some ⌊((70 : ℚ) - 50) / 2⌋ ∧
      0 ≤ ⌊((70 : ℚ) - 50) / 2⌋ :=
  ⟨⟨by norm_num, by norm_num⟩,
   (C1_days_to_threshold 50 2 70).2.2 (by norm_num) (by norm_num)⟩

/-! ### C3: degenerate regression input is not caught -/

/-- C3: two samples with identical timestamps give a zero-variance x vector;
`_linear_regression` divides by `n * sum_x2 - sum_x^2 = 0` and the resulting
`ZeroDivisionError` (modelled by `none`) propagates out of `forecast_linear`
instead of being caught and turned into the empty forecast. -/
theorem C3_degenerate_input_raises :
    forecastLinear defaultConfig [((0 : ℚ), 10), ((0 : ℚ), 20)] 90 = none := by
  norm_num [forecastLinear, xValuesOf, yValuesOf, sortData, List.insertionSort,
    List.orderedInsert, linearRegression]

/-! ### C5: constant series -/

/-- C5 (counterexample): the constant series at 80 (two samples, distinct
timestamps) is already above the default warning threshold 70, so
`days_to_warning` is 0, not `none` as the claim states for every constant series. -/
theorem C5_constant_above_threshold_counterexample :
    (forecastLinear defaultConfig [((0 : ℚ), 80), (86400, 80)] 5).elim
        none ForecastResult.days_to_warning = some 0 := by
  norm_num [forecastLinear, xValuesOf, yValuesOf, sortData, defaultConfig,
    List.insertionSort, List.orderedInsert, linearRegression, findThresholdCrossing]

/-! ### C9: 95th-percentile billing -/

/-- C9: on a non-empty sample list the routine returns the element of the
ascending-sorted copy (characterised abstractly as any sorted permutation of
the input) at index `⌊n * 0.95⌋` clamped to the last valid index, and on the
empty list it returns 0. -/
theorem C9_percentile (samples : List ℚ) :
    (samples = [] → calculate95thPercentile samples = 0) ∧
    (samples ≠ [] → ∀ s : List ℚ, s.Perm samples → s.Sorted (fun a b => a ≤ b) →
      calculate95thPercentile samples
        = s.getD (min (⌊(samples.length : ℚ) * (0.95 : ℚ)⌋).toNat
            (samples.length - 1)) 0) := by
  constructor
  · intro h
    simp [calculate95thPercentile, h]
  · intro h s hperm hsorted
    have hn : 1 ≤ samples.length := List.length_pos.mpr h
    have hfl : ⌊(samples.length : ℚ) * (0.95 : ℚ)⌋ < (samples.length : ℤ) := by
      apply Int.floor_lt.mpr
      push_cast
      nlinarith [hn, (by exact_mod_cast hn : (1 : ℚ) ≤ (samples.length : ℚ))]
    have hge : 0 ≤ ⌊(samples.length : ℚ) * (0.95 : ℚ)⌋ := by
      apply Int.floor_nonneg.mpr
      positivity
    have hlt : (⌊(samples.length : ℚ) * (0.95 : ℚ)⌋).toNat < samples.length := by
      omega
    have hs : s = samples.insertionSort (fun a b => a ≤ b) := by
      apply List.eq_of_perm_of_sorted
        (hperm.trans (List.perm_insertionSort (fun a b => a ≤ b) samples).symm) hsorted
      exact List.sorted_insertionSort (fun a b => a ≤ b) samples
    have hslen : (samples.insertionSort (fun a b => a ≤ b)).length = samples.length :=
      (List.perm_insertionSort (fun a b => a ≤ b) samples).length_eq
    rw [calculate95thPercentile, if_neg h, hs]
    simp only [hslen]
    rw [if_neg (by omega), min_eq_left (by omega)]

/-- C9 (witness): `[3, 1, 2]` is non-empty, `[1, 2, 3]` is a sorted permutation
of it, and the routine returns the sorted element at index
`min ⌊3 * 0.95⌋ 2 = 2`, i.e. 3. -/
theorem C9_percentile_witness :
    (([3, 1, 2] : List ℚ) ≠ [] ∧ ([1, 2, 3] : List ℚ).Perm [3, 1, 2] ∧
      ([1, 2, 3] : List ℚ).Sorted (fun a b => a ≤ b)) ∧
    calculate95thPercentile [3, 1, 2]
      = ([1, 2, 3] : List ℚ).getD (min (⌊((3 : ℕ) : ℚ) * (0.95 : ℚ)⌋).toNat (3 - 1)) 0 :=
  ⟨⟨by decide, by decide, by decide⟩,
   (C9_percentile [3, 1, 2]).2 (by decide) [1, 2, 3] (by decide) (by decide)⟩

/-! ### C4: fewer than 2 samples gives the canonical empty forecast -/

/-- C4: with fewer than 2 input samples every method (linear, exponential
smoothing, and seasonal with any positive period, which falls back to linear)
returns the canonical empty forecast: no points, confidence 0, trend strength
0, and no threshold crossings. -/
theorem C4_empty_forecast (cfg : PredictorConfig) (data : List (ℚ × ℚ))
    (fd period : ℕ) (alpha : ℚ) (hlen : data.length < 2) (hper : 1 ≤ period) :
    forecastLinear cfg data fd = some (emptyForecast ("N/A") 0) ∧
    forecastExponentialSmoothing cfg data fd alpha = emptyForecast ("N/A") 0 ∧
    forecastWithSeasonality cfg data fd period = some (emptyForecast ("N/A") 0) ∧
    (emptyForecast ("N/A") 0).forecast_points = [] ∧
    (emptyForecast ("N/A") 0).forecast_confidence = 0 ∧
    (emptyForecast ("N/A") 0).trend_strength = 0 ∧
    (emptyForecast ("N/A") 0).days_to_warning = none ∧
    (emptyForecast ("N/A") 0).days_to_critical = none ∧
    (emptyForecast ("N/A") 0).days_to_capacity = none := by
  have h1 : forecastLinear cfg data fd = some (emptyForecast ("N/A") 0) := by
    simp [forecastLinear, hlen]
  refine ⟨h1, ?_, ?_, rfl, rfl, rfl, rfl, rfl, rfl⟩
  · simp [forecastExponentialSmoothing, hlen]
  · have h2 : data.length < period * 2 := by omega
    simp only [forecastWithSeasonality, if_pos h2]
    exact h1

/-- C4 (witness): the empty sample list with period 7 and any horizon. -/
theorem C4_empty_forecast_witness :
    (([] : List (ℚ × ℚ)).length < 2 ∧ 1 ≤ 7) ∧
    forecastLinear defaultConfig [] 3 = some (emptyForecast ("N/A") 0) ∧
    forecastExponentialSmoothing defaultConfig [] 3 (3 / 10) = emptyForecast ("N/A") 0 ∧
    forecastWithSeasonality defaultConfig [] 3 7 = some (emptyForecast ("N/A") 0) ∧
    (emptyForecast ("N/A") 0).forecast_points = [] ∧
    (emptyForecast ("N/A") 0).forecast_confidence = 0 ∧
    (emptyForecast ("N/A") 0).trend_strength = 0 ∧
    (emptyForecast ("N/A") 0).days_to_warning = none ∧
    (emptyForecast ("N/A") 0).days_to_critical = none ∧
    (emptyForecast ("N/A") 0).days_to_capacity = none :=
  ⟨⟨by decide, by decide⟩,
   C4_empty_forecast defaultConfig [] 3 7 (3 / 10) (by decide) (by decide)⟩

/-! ### C7: acceleration detection -/

/-- C7 (counterexample): on `[0, 0, 0, 0, 100, 100, 100]` (odd length 7) the
code splits at `7 // 2 = 3`, so the SECOND half `[0, 100, 100, 100]` gets the
extra element and the detector fires; under the claim's split, where the first
half gets the extra element, the comparison comes out false. -/
theorem C7_split_counterexample :
    detectAcceleration [0, 0, 0, 0, 100, 100, 100] = true ∧
      claimAcceleration [0, 0, 0, 0, 100, 100, 100] = false := by
  constructor
  · norm_num [detectAcceleration]
  · norm_num [claimAcceleration]

/-- C7 (amended): for fewer than 6 values the detector returns false; for at
least 6 values it splits at index `len // 2`, the SECOND half receiving the
extra element when the length is odd, computes each half's rate as
`(last - first) / len(half)`, and fires iff the second rate exceeds 1.2 times
the first. -/
theorem C7_acceleration (values : List ℚ) :
    (values.length < 6 → detectAcceleration values = false) ∧
    (6 ≤ values.length →
      ((values.take (values.length / 2)).length = values.length / 2 ∧
       (values.drop (values.length / 2)).length = values.length - values.length / 2 ∧
       (values.length % 2 = 1 →
         (values.take (values.length / 2)).length
           < (values.drop (values.length / 2)).length) ∧
       (detectAcceleration values = true ↔
         (values.getD (values.length / 2 - 1) 0 - values.getD 0 0)
             / ((values.length / 2 : ℕ) : ℚ) * (1.2 : ℚ)
           < (values.getLastD 0 - values.getD (values.length / 2) 0)
             / ((values.length - values.length / 2 : ℕ) : ℚ)))) := by
  constructor
  · intro h
    simp [detectAcceleration, h]
  · intro h
    have hmid_lt : values.length / 2 < values.length := by omega
    have hmid_ne : values.length / 2 ≠ 0 := by omega
    have hmid_le : values.length / 2 ≤ values.length := hmid_lt.le
    have hm1 : values.length / 2 - 1 < values.length := by omega
    refine ⟨by simp [List.length_take, min_eq_left hmid_le], by simp, fun _ => ?_, ?_⟩
    · simp [List.length_take, min_eq_left hmid_le]
      omega
    · rw [detectAcceleration, if_neg (by omega)]
      have e1 : (values.take (values.length / 2)).getLastD 0
          = values.getD (values.length / 2 - 1) 0 := by
        rw [List.getLastD_eq_getLast?, List.getLast?_take, if_neg hmid_ne,
          List.getElem?_eq_getElem hm1, List.getD_eq_getElem?_getD,
          List.getElem?_eq_getElem hm1]
        rfl
      have e2 : (values.take (values.length / 2)).headD 0 = values.getD 0 0 := by
        rw [List.headD_eq_head?, List.head?_take, if_neg hmid_ne,
          List.head?_eq_getElem?, List.getD_eq_getElem?_getD]
      have e3 : (values.drop (values.length / 2)).headD 0
          = values.getD (values.length / 2) 0 := by
        rw [List.headD_eq_head?, List.head?_drop, List.getD_eq_getElem?_getD]
      have e4 : (values.drop (values.length / 2)).getLastD 0 = values.getLastD 0 := by
        rw [List.getLastD_eq_getLast?, List.getLastD_eq_getLast?, List.getLast?_drop,
          if_neg (by omega)]
      dsimp only
      rw [e1, e2, e3, e4, List.length_take, min_eq_left hmid_le, List.length_drop]
      simp [decide_eq_true_eq]

/-- C7 (witness): `[0, 10, 20, 30, 40, 60]` has 6 points; the detector's answer
is characterised by the halves' rates `20/3` and `10`, and `20/3 * 1.2 < 10`. -/
theorem C7_acceleration_witness :
    6 ≤ ([0, 10, 20, 30, 40, 60] : List ℚ).length ∧
    (detectAcceleration [0, 10, 20, 30, 40, 60] = true ↔
      (([0, 10, 20, 30, 40, 60] : List ℚ).getD (([0, 10, 20, 30, 40, 60] : List ℚ).length / 2 - 1) 0
          - ([0, 10, 20, 30, 40, 60] : List ℚ).getD 0 0)
          / ((([0, 10, 20, 30, 40, 60] : List ℚ).length / 2 : ℕ) : ℚ) * (1.2 : ℚ)
        < (([0, 10, 20, 30, 40, 60] : List ℚ).getLastD 0
          - ([0, 10, 20, 30, 40, 60] : List ℚ).getD (([0, 10, 20, 30, 40, 60] : List ℚ).length / 2) 0)
          / ((([0, 10, 20, 30, 40, 60] : List ℚ).length
              - ([0, 10, 20, 30, 40, 60] : List ℚ).length / 2 : ℕ) : ℚ)) :=
  ⟨by decide, ((C7_acceleration [0, 10, 20, 30, 40, 60]).2 (by decide)).2.2.2⟩

/-! ### C8: seasonal component is period-long and centered -/

/-- C8: for any positive period and at least `2 * period` values, the seasonal
component returned by `_seasonal_decomposition` has exactly `period` entries
and its mean is exactly 0 (the raw per-phase averages are re-centered by
subtracting their mean). -/
theorem C8_seasonal_centered (values : List ℚ) (period : ℕ) (hper : 1 ≤ period)
    (hlen : 2 * period ≤ values.length) :
    (seasonalDecomposition values period).map (fun p => p.2.length) = some period ∧
    (seasonalDecomposition values period).map (fun p => statMean p.2) = some 0 := by
  have hp0 : period ≠ 0 := by omega
  have hrawlen : (seasonalRaw values period).length = period := by
    simp [seasonalRaw]
  have hQ : ((period : ℚ)) ≠ 0 := Nat.cast_ne_zero.mpr hp0
  constructor
  · simp only [seasonalDecomposition, if_neg hp0, Option.map_some']
    simp [hrawlen]
  · simp only [seasonalDecomposition, if_neg hp0, Option.map_some']
    have hmean : statMean ((seasonalRaw values period).map
        (fun s => s - statMean (seasonalRaw values period))) = 0 := by
      rw [statMean, sum_map_sub_const, List.length_map, hrawlen]
      rw [statMean, hrawlen]
      field_simp
    simp [hmean]

/-- C8 (witness): 14 zero samples with weekly period 7: the seasonal vector has
7 entries and mean 0. -/
theorem C8_seasonal_centered_witness :
    (1 ≤ 7 ∧ 2 * 7 ≤ (List.replicate 14 (0 : ℚ)).length) ∧
    (seasonalDecomposition (List.replicate 14 (0 : ℚ)) 7).map (fun p => p.2.length)
        = some 7 ∧
    (seasonalDecomposition (List.replicate 14 (0 : ℚ)) 7).map (fun p => statMean p.2)
        = some 0 :=
  ⟨⟨by decide, by decide⟩,
   C8_seasonal_centered (List.replicate 14 0) 7 (by decide) (by decide)⟩

/-! ### C2 / C6 shared evaluation example -/

lemma examplePoints :
    pointsOf (forecastLinear defaultConfig [((0 : ℚ), 0), (86400, 60)] 2)
      = [mkForecastPoint 172800 120 (linearWidth [0, 1] [0, 60] 60 0 1),
         mkForecastPoint 259200 180 (linearWidth [0, 1] [0, 60] 60 0 2)] := by
  norm_num [pointsOf, forecastLinear, xValuesOf, yValuesOf, sortData,
    List.insertionSort, List.orderedInsert, linearRegression,
    List.range_succ, List.range_zero]

lemma exampleWidthZero (d : ℕ) : linearWidth [0, 1] [0, 60] 60 0 d = 0 := by
  norm_num [linearWidth, calcStdError]

/-! ### C6: confidence width monotonicity -/

/-- C6 (counterexample): on samples `(day 0, 0), (day 1, 60)` the regression
fits perfectly (slope 60, zero standard error), predictions leave `[0, 100]`,
and the stored clamped width `confidence_upper - confidence_lower` SHRINKS from
day 1 (`100 - 120 = -20`) to day 2 (`100 - 180 = -80`), refuting the claimed
non-decrease of the returned points' interval widths. -/
theorem C6_clamped_width_counterexample :
    storedWidth ((pointsOf (forecastLinear defaultConfig
          [((0 : ℚ), 0), (86400, 60)] 2)).getD 1 (mkForecastPoint 0 0 0))
      < storedWidth ((pointsOf (forecastLinear defaultConfig
          [((0 : ℚ), 0), (86400, 60)] 2)).getD 0 (mkForecastPoint 0 0 0)) := by
  rw [examplePoints]
  simp only [List.getD_cons_zero, List.getD_cons_succ, storedWidth, mkForecastPoint,
    exampleWidthZero]
  push_cast
  norm_num

/-- C6 (amended): the half-width used to build the bounds —
`std_error * sqrt(1 + day/n)` for the linear method and
`sqrt(variance) * sqrt(day)` for exponential smoothing — is non-decreasing in
the forecast day, so the UNclamped interval width is non-decreasing; after
clamping the bounds to `[0, 100]` the stored width can shrink (see the
counterexample). -/
theorem C6_width_monotone :
    (∀ (x y : List ℚ) (m b : ℚ) (d d' : ℕ), d ≤ d' →
      linearWidth x y m b d ≤ linearWidth x y m b d') ∧
    (∀ (values : List ℚ) (d d' : ℕ), d ≤ d' →
      expWidth values d ≤ expWidth values d') := by
  constructor
  · intro x y m b d d' hdd
    apply mul_le_mul_of_nonneg_left _ (Real.sqrt_nonneg _)
    apply Real.sqrt_le_sqrt
    rw [Rat.cast_le]
    rcases eq_or_ne ((x.length : ℚ)) 0 with h | h
    · simp [h]
    · have hpos : 0 < ((x.length : ℚ)) :=
        lt_of_le_of_ne (Nat.cast_nonneg _) (Ne.symm h)
      have hq : ((d : ℚ)) ≤ ((d' : ℚ)) := by exact_mod_cast hdd
      gcongr
  · intro values d d' hdd
    apply mul_le_mul_of_nonneg_left _ (Real.sqrt_nonneg _)
    exact Real.sqrt_le_sqrt (by exact_mod_cast hdd)

/-- C6 (witness): on the x-values `[0, 1]`, the linear half-width at day 30 is
at least the half-width at day 1, and likewise for the exponential half-width
on `[1, 2, 3]`. -/
theorem C6_width_monotone_witness :
    (1 ≤ 30 ∧ linearWidth [0, 1] [0, 60] 60 0 1 ≤ linearWidth [0, 1] [0, 60] 60 0 30) ∧
    expWidth [1, 2, 3] 1 ≤ expWidth [1, 2, 3] 30 :=
  ⟨⟨by decide, C6_width_monotone.1 [0, 1] [0, 60] 60 0 1 30 (by decide)⟩,
   C6_width_monotone.2 [1, 2, 3] 1 30 (by decide)⟩

/-! ### C2: confidence bound invariants -/

lemma calcStdError_nonneg (x y : List ℚ) (m b : ℚ) : 0 ≤ calcStdError x y m b :=
  Real.sqrt_nonneg _

lemma linearWidth_nonneg (x y : List ℚ) (m b : ℚ) (d : ℕ) : 0 ≤ linearWidth x y m b d :=
  mul_nonneg (calcStdError_nonneg x y m b) (Real.sqrt_nonneg _)

lemma expWidth_nonneg (values : List ℚ) (d : ℕ) : 0 ≤ expWidth values d :=
  mul_nonneg (Real.sqrt_nonneg _) (Real.sqrt_nonneg _)

lemma linear_points_shape (cfg : PredictorConfig) (data : List (ℚ × ℚ)) (fd : ℕ)
    (p : ForecastPoint) (hp : p ∈ pointsOf (forecastLinear cfg data fd)) :
    ∃ (ts raw : ℚ) (w : ℝ), 0 ≤ w ∧ p = mkForecastPoint ts raw w := by
  simp only [forecastLinear, pointsOf] at hp
  split at hp
  · simp [emptyForecast] at hp
  · split at hp
    · simp at hp
    · simp only [Option.elim] at hp
      obtain ⟨i, _, rfl⟩ := List.mem_map.mp hp
      exact ⟨_, _, _, linearWidth_nonneg _ _ _ _ _, rfl⟩

lemma exp_points_shape (cfg : PredictorConfig) (data : List (ℚ × ℚ)) (fd : ℕ)
    (alpha : ℚ) (p : ForecastPoint)
    (hp : p ∈ (forecastExponentialSmoothing cfg data fd alpha).forecast_points) :
    ∃ (ts raw : ℚ) (w : ℝ), 0 ≤ w ∧ p = mkForecastPoint ts raw w := by
  simp only [forecastExponentialSmoothing] at hp
  split at hp
  · simp [emptyForecast] at hp
  · simp only at hp
    obtain ⟨i, _, rfl⟩ := List.mem_map.mp hp
    exact ⟨_, _, _, expWidth_nonneg _ _, rfl⟩

lemma seasonal_points_shape (cfg : PredictorConfig) (data : List (ℚ × ℚ))
    (fd period : ℕ) (p : ForecastPoint)
    (hp : p ∈ pointsOf (forecastWithSeasonality cfg data fd period)) :
    (∃ (ts raw : ℚ) (w : ℝ), 0 ≤ w ∧ p = mkForecastPoint ts raw w) ∨
    (∃ (ts raw : ℚ) (w : ℝ) (adj : ℚ), 0 ≤ w ∧
      p = seasonalAdjust (mkForecastPoint ts raw w) adj) := by
  simp only [forecastWithSeasonality] at hp
  split at hp
  · exact Or.inl (linear_points_shape cfg data fd p hp)
  · split at hp
    · simp [pointsOf] at hp
    · rename_i trend seasonal heq
      split at hp
      · simp [pointsOf] at hp
      · rename_i tf htf
        simp only [pointsOf, Option.elim] at hp
        obtain ⟨ip, hip, rfl⟩ := List.mem_map.mp hp
        have hq : ip.2 ∈ tf.forecast_points := by
          have := List.mem_enum_iff_getElem?.mp hip
          exact List.getElem?_mem this
        have hq2 : ip.2 ∈ pointsOf (forecastLinear cfg
            (List.zipWith (fun p t => (p.1, t)) (sortData data) trend) fd) := by
          rw [htf]
          exact hq
        obtain ⟨ts, raw, w, hw, hsh⟩ := linear_points_shape _ _ _ _ hq2
        exact Or.inr ⟨ts, raw, w, seasonal.getD (ip.1 % seasonal.length) 0, hw, by rw [hsh]⟩

/-- C2 (counterexample): on samples `(day 0, 0), (day 1, 60)` the day-1 raw
prediction is 120 with zero standard error, so the stored point has
`confidence_lower = max(0, 120) = 120`: the lower bound exceeds 100 (not in
`[0, 100]`) and exceeds the upper bound `min(100, 120) = 100`, refuting the
claimed chain and clamping of both bounds. -/
theorem C2_bounds_counterexample :
    ((pointsOf (forecastLinear defaultConfig [((0 : ℚ), 0), (86400, 60)] 2)).getD 0
        (mkForecastPoint 0 0 0)).confidence_upper
      < ((pointsOf (forecastLinear defaultConfig [((0 : ℚ), 0), (86400, 60)] 2)).getD 0
        (mkForecastPoint 0 0 0)).confidence_lower ∧
    100 < ((pointsOf (forecastLinear defaultConfig [((0 : ℚ), 0), (86400, 60)] 2)).getD 0
        (mkForecastPoint 0 0 0)).confidence_lower := by
  rw [examplePoints]
  simp only [List.getD_cons_zero, mkForecastPoint, exampleWidthZero]
  push_cast
  norm_num

/-- C2 (amended): every `ForecastPoint` produced by the three methods has
`predicted_utilization ∈ [0, 100]`, `confidence_lower ≥ 0` and
`confidence_upper ≤ 100`; the full chain
`confidence_lower ≤ predicted_utilization ≤ confidence_upper` (with both
bounds in `[0, 100]`) holds whenever the raw unclamped prediction lies in
`[0, 100]` — for the seasonal method whenever both the trend point's raw
prediction and the seasonally adjusted value do — but can fail otherwise
(see the counterexample). Every point of the three forecasters is of the
`mkForecastPoint` / `seasonalAdjust` shape with a non-negative half-width. -/
theorem C2_point_bounds :
    (∀ (ts raw : ℚ) (w : ℝ), 0 ≤ w →
      ((0 ≤ (mkForecastPoint ts raw w).predicted_utilization ∧
        (mkForecastPoint ts raw w).predicted_utilization ≤ 100 ∧
        0 ≤ (mkForecastPoint ts raw w).confidence_lower ∧
        (mkForecastPoint ts raw w).confidence_upper ≤ 100) ∧
       (0 ≤ raw → raw ≤ 100 →
         (mkForecastPoint ts raw w).confidence_lower
             ≤ ((mkForecastPoint ts raw w).predicted_utilization : ℝ) ∧
           ((mkForecastPoint ts raw w).predicted_utilization : ℝ)
             ≤ (mkForecastPoint ts raw w).confidence_upper ∧
           (mkForecastPoint ts raw w).confidence_lower ≤ 100 ∧
           0 ≤ (mkForecastPoint ts raw w).confidence_upper))) ∧
    (∀ (p : ForecastPoint) (adj : ℚ),
      0 ≤ (seasonalAdjust p adj).predicted_utilization ∧
      (seasonalAdjust p adj).predicted_utilization ≤ 100 ∧
      0 ≤ (seasonalAdjust p adj).confidence_lower ∧
      (seasonalAdjust p adj).confidence_upper ≤ 100) ∧
    (∀ (ts raw : ℚ) (w : ℝ) (adj : ℚ), 0 ≤ w → 0 ≤ raw → raw ≤ 100 →
      0 ≤ raw + adj → raw + adj ≤ 100 →
      (seasonalAdjust (mkForecastPoint ts raw w) adj).confidence_lower
          ≤ ((seasonalAdjust (mkForecastPoint ts raw w) adj).predicted_utilization : ℝ) ∧
        ((seasonalAdjust (mkForecastPoint ts raw w) adj).predicted_utilization : ℝ)
          ≤ (seasonalAdjust (mkForecastPoint ts raw w) adj).confidence_upper) ∧
    (∀ (cfg : PredictorConfig) (data : List (ℚ × ℚ)) (fd : ℕ) (p : ForecastPoint),
      p ∈ pointsOf (forecastLinear cfg data fd) →
      ∃ (ts raw : ℚ) (w : ℝ), 0 ≤ w ∧ p = mkForecastPoint ts raw w) ∧
    (∀ (cfg : PredictorConfig) (data : List (ℚ × ℚ)) (fd : ℕ) (alpha : ℚ)
       (p : ForecastPoint),
      p ∈ (forecastExponentialSmoothing cfg data fd alpha).forecast_points →
      ∃ (ts raw : ℚ) (w : ℝ), 0 ≤ w ∧ p = mkForecastPoint ts raw w) ∧
    (∀ (cfg : PredictorConfig) (data : List (ℚ × ℚ)) (fd period : ℕ)
       (p : ForecastPoint),
      p ∈ pointsOf (forecastWithSeasonality cfg data fd period) →
      (∃ (ts raw : ℚ) (w : ℝ), 0 ≤ w ∧ p = mkForecastPoint ts raw w) ∨
      (∃ (ts raw : ℚ) (w : ℝ) (adj : ℚ), 0 ≤ w ∧
        p = seasonalAdjust (mkForecastPoint ts raw w) adj)) := by
  refine ⟨?_, ?_, ?_, linear_points_shape, exp_points_shape, seasonal_points_shape⟩
  · intro ts raw w hw
    dsimp only [mkForecastPoint]
    constructor
    · exact ⟨le_max_left _ _, max_le (by norm_num) (min_le_left _ _),
        le_max_left _ _, min_le_left _ _⟩
    · intro h0 h100
      have hpred : max 0 (min 100 raw) = raw := by
        rw [min_eq_right h100, max_eq_right h0]
      rw [hpred]
      have hr0 : (0 : ℝ) ≤ (raw : ℝ) := by exact_mod_cast h0
      have hr100 : (raw : ℝ) ≤ 100 := by exact_mod_cast h100
      refine ⟨max_le hr0 (by linarith), le_min hr100 (by linarith), ?_, ?_⟩
      · exact max_le (by norm_num) (by linarith)
      · exact le_min (by norm_num) (by linarith)
  · intro p adj
    dsimp only [seasonalAdjust]
    exact ⟨le_max_left _ _, max_le (by norm_num) (min_le_left _ _),
      le_max_left _ _, min_le_left _ _⟩
  · intro ts raw w adj hw h0 h100 h0' h100'
    dsimp only [seasonalAdjust, mkForecastPoint]
    have hpred : max 0 (min 100 raw) = raw := by
      rw [min_eq_right h100, max_eq_right h0]
    have hpred' : max 0 (min 100 (max 0 (min 100 raw) + adj)) = raw + adj := by
      rw [hpred, min_eq_right h100', max_eq_right h0']
    rw [hpred']
    have hr0 : (0 : ℝ) ≤ (raw : ℝ) := by exact_mod_cast h0
    have hr100 : (raw : ℝ) ≤ 100 := by exact_mod_cast h100
    have hs0 : (0 : ℝ) ≤ (raw : ℝ) + (adj : ℝ) := by exact_mod_cast h0'
    have hs100 : (raw : ℝ) + (adj : ℝ) ≤ 100 := by exact_mod_cast h100'
    constructor
    · push_cast
      apply max_le hs0
      have : max 0 ((raw : ℝ) - 2 * w) ≤ (raw : ℝ) := max_le hr0 (by linarith)
      linarith
    · push_cast
      apply le_min hs100
      have : (raw : ℝ) ≤ min 100 ((raw : ℝ) + 2 * w) := le_min hr100 (by linarith)
      linarith

/-- C2 (witness): the point built from raw prediction 50 with zero width has
its predicted value between its bounds and all fields inside `[0, 100]`. -/
theorem C2_point_bounds_witness :
    ((0 : ℝ) ≤ 0 ∧ (0 : ℚ) ≤ 50 ∧ (50 : ℚ) ≤ 100) ∧
    ((mkForecastPoint 0 50 0).confidence_lower
        ≤ ((mkForecastPoint 0 50 0).predicted_utilization : ℝ) ∧
      ((mkForecastPoint 0 50 0).predicted_utilization : ℝ)
        ≤ (mkForecastPoint 0 50 0).confidence_upper ∧
      (mkForecastPoint 0 50 0).confidence_lower ≤ 100 ∧
      0 ≤ (mkForecastPoint 0 50 0).confidence_upper) :=
  ⟨⟨le_refl 0, by norm_num, by norm_num⟩,
   (C2_point_bounds.1 0 50 0 (le_refl 0)).2 (by norm_num) (by norm_num)⟩

/-! ### C10: seasonal forecast delegates its scalar fields to the trend forecast -/

/-- C10: when the seasonal path applies (`len >= 2 * period`, positive period),
the scalar fields of the seasonal result — threshold crossings, trend strength,
confidence, current utilization, acceleration — are exactly those of the
linear forecast applied to the moving-average trend series (`trendPairs`):
the crossing logic therefore uses the last trend value as "current" and the
trend series' OLS slope as rate, while seasonal offsets touch only the
forecast points and the `seasonal_pattern` label. -/
theorem C10_seasonal_scalar_fields (cfg : PredictorConfig) (data : List (ℚ × ℚ))
    (fd period : ℕ) (hper : 1 ≤ period) (hlen : 2 * period ≤ data.length) :
    (forecastWithSeasonality cfg data fd period).map resultCore
      = (forecastLinear cfg (trendPairs data period) fd).map resultCore := by
  have hp0 : period ≠ 0 := by omega
  have htp : trendPairs data period
      = List.zipWith (fun p t => (p.1, t)) (sortData data)
          (movingAvgTrend ((sortData data).map Prod.snd) period) := rfl
  rw [htp]
  simp only [forecastWithSeasonality, if_neg (by omega : ¬ data.length < period * 2),
    seasonalDecomposition, if_neg hp0]
  cases h : forecastLinear cfg (List.zipWith (fun p t => (p.1, t)) (sortData data)
      (movingAvgTrend ((sortData data).map Prod.snd) period)) fd with
  | none => simp
  | some tf => simp [resultCore]

/-- C10 (witness): two samples with period 1 satisfy the hypotheses, and the
seasonal result's scalar core equals the trend forecast's. -/
theorem C10_seasonal_scalar_fields_witness :
    (1 ≤ 1 ∧ 2 * 1 ≤ ([((0 : ℚ), 10), (86400, 20)] : List (ℚ × ℚ)).length) ∧
    (forecastWithSeasonality defaultConfig [((0 : ℚ), 10), (86400, 20)] 1 1).map resultCore
      = (forecastLinear defaultConfig
          (trendPairs [((0 : ℚ), 10), (86400, 20)] 1) 1).map resultCore :=
  ⟨⟨by decide, by decide⟩,
   C10_seasonal_scalar_fields defaultConfig [((0 : ℚ), 10), (86400, 20)] 1 1
     (by decide) (by decide)⟩
/-! ### C5: constant series -/

set_option maxHeartbeats 1000000 in
/-- C5 (amended): for a constant series (all utilizations equal to `c`, at
least 2 samples, pairwise distinct timestamps) the linear forecast has
`trend_strength = 0` and `forecast_confidence = 0` (the slope is exactly 0 and
`SS_tot = 0` short-circuits R² to 0), and each `days_to_*` is `none` PROVIDED
the constant value is below the corresponding threshold; a constant series at
or above a threshold yields 0 for that crossing (see the counterexample). -/
theorem C5_constant_series (cfg : PredictorConfig) (data : List (ℚ × ℚ)) (fd : ℕ) (c : ℚ)
    (hlen : 2 ≤ data.length) (hconst : ∀ p ∈ data, p.2 = c)
    (hdist : data.Pairwise (fun p q => p.1 ≠ q.1)) :
    (forecastLinear cfg data fd).map ForecastResult.trend_strength = some 0 ∧
    (forecastLinear cfg data fd).map ForecastResult.forecast_confidence = some 0 ∧
    (c < cfg.warning_threshold →
      (forecastLinear cfg data fd).map ForecastResult.days_to_warning = some none) ∧
    (c < cfg.critical_threshold →
      (forecastLinear cfg data fd).map ForecastResult.days_to_critical = some none) ∧
    (c < cfg.capacity_threshold →
      (forecastLinear cfg data fd).map ForecastResult.days_to_capacity = some none) := by
  have hperm : (sortData data).Perm data := List.perm_insertionSort _ data
  have hslen : (sortData data).length = data.length := hperm.length_eq
  have h2 : 2 ≤ (sortData data).length := by omega
  have hconst' : ∀ p ∈ sortData data, p.2 = c := fun p hp => hconst p (hperm.mem_iff.mp hp)
  have hdist' : (sortData data).Pairwise (fun p q => p.1 ≠ q.1) :=
    (List.Perm.pairwise_iff (fun h => Ne.symm h) hperm).mpr hdist
  -- expose the first two elements of the sorted list
  obtain ⟨p, t1, hpt⟩ : ∃ p t1, sortData data = p :: t1 := by
    cases hs : sortData data with
    | nil => rw [hs] at h2; simp at h2
    | cons a t => exact ⟨a, t, rfl⟩
  obtain ⟨q, t2, hqt⟩ : ∃ q t2, t1 = q :: t2 := by
    cases ht : t1 with
    | nil => rw [hpt, ht] at h2; simp at h2
    | cons a t => exact ⟨a, t, rfl⟩
  rw [hqt] at hpt
  have hpq : p.1 ≠ q.1 := by
    rw [hpt] at hdist'
    exact (List.pairwise_cons.mp hdist').1 q (by simp)
  -- x values
  have hx : xValuesOf data = (p :: q :: t2).map (fun r => (r.1 - p.1) / 86400) := by
    simp only [xValuesOf, hpt, List.headD_cons]
  have hxlen : (xValuesOf data).length = data.length := by
    rw [hx]
    simp only [List.length_map]
    rw [← hpt, hslen]
  have hylen : (yValuesOf data).length = data.length := by
    simp only [yValuesOf, List.length_map, hslen]
  have hcy : ∀ v ∈ yValuesOf data, v = c := by
    intro v hv
    obtain ⟨r, hr, rfl⟩ := List.mem_map.mp hv
    exact hconst' r hr
  -- two distinct x values
  have hmem0 : ((p.1 - p.1) / 86400 : ℚ) ∈ xValuesOf data := by
    rw [hx]
    exact List.mem_map_of_mem _ (by simp)
  have hmem1 : ((q.1 - p.1) / 86400 : ℚ) ∈ xValuesOf data := by
    rw [hx]
    exact List.mem_map_of_mem _ (by simp)
  have hab : ((p.1 - p.1) / 86400 : ℚ) ≠ (q.1 - p.1) / 86400 := by
    rw [sub_self, zero_div]
    exact (div_ne_zero (sub_ne_zero.mpr (Ne.symm hpq)) (by norm_num)).symm
  have hdenom : 0 < ((xValuesOf data).length : ℚ)
      * ((xValuesOf data).map (fun v => v * v)).sum
      - (xValuesOf data).sum * (xValuesOf data).sum :=
    regression_denom_pos _ _ _ hmem0 hmem1 hab
  -- regression collapses to slope 0
  have hXY : (((xValuesOf data).zip (yValuesOf data)).map (fun r => r.1 * r.2)).sum
      = c * (xValuesOf data).sum :=
    zip_const_snd_sum _ _ c (by omega) hcy
  have hY : (yValuesOf data).sum = ((yValuesOf data).length : ℚ) * c :=
    sum_of_const _ c hcy
  have hnum : ((xValuesOf data).length : ℚ) * (c * (xValuesOf data).sum)
      - (xValuesOf data).sum * (((yValuesOf data).length : ℚ) * c) = 0 := by
    have : ((yValuesOf data).length : ℚ) = ((xValuesOf data).length : ℚ) := by
      rw [hxlen, hylen]
    rw [this]; ring
  have hreg : linearRegression (xValuesOf data) (yValuesOf data)
      = some (0, (((yValuesOf data).length : ℚ) * c - 0 * (xValuesOf data).sum)
          / ((xValuesOf data).length : ℚ)) := by
    simp only [linearRegression, hXY, hY]
    rw [if_neg hdenom.ne', hnum, zero_div]
  -- r squared is 0 on a constant series
  have hmean : statMean (yValuesOf data) = c := by
    rw [statMean, hY]
    have : ((yValuesOf data).length : ℚ) ≠ 0 := by
      rw [hylen]
      exact_mod_cast (by omega : data.length ≠ 0)
    field_simp
  have hss : ((yValuesOf data).map (fun yi => (yi - statMean (yValuesOf data)) ^ 2)).sum
      = 0 := by
    apply List.sum_eq_zero
    intro t ht
    obtain ⟨yi, hyi, rfl⟩ := List.mem_map.mp ht
    rw [hcy yi hyi, hmean]
    ring
  have hr2 : ∀ m b, calcRSquared (xValuesOf data) (yValuesOf data) m b = 0 := by
    intro m b
    simp only [calcRSquared]
    rw [if_pos hss]
  -- last y value is c
  have hcur : (yValuesOf data).getLastD 0 = c := by
    apply hcy
    apply mem_getLastD
    intro hnil
    rw [hnil] at hylen
    simp at hylen
    omega
  have hnot2 : ¬ data.length < 2 := by omega
  refine ⟨?_, ?_, fun hc => ?_, fun hc => ?_, fun hc => ?_⟩
  · simp only [forecastLinear, if_neg hnot2, hreg]
    simp [hr2]
  · simp only [forecastLinear, if_neg hnot2, hreg]
    simp [hr2]
  · simp only [forecastLinear, if_neg hnot2, hreg]
    simp only [Option.map_some']
    rw [hcur]
    simp [findThresholdCrossing, not_le.mpr hc]
  · simp only [forecastLinear, if_neg hnot2, hreg]
    simp only [Option.map_some']
    rw [hcur]
    simp [findThresholdCrossing, not_le.mpr hc]
  · simp only [forecastLinear, if_neg hnot2, hreg]
    simp only [Option.map_some']
    rw [hcur]
    simp [findThresholdCrossing, not_le.mpr hc]


/-- C5 (witness): the constant series at 50 with timestamps one day apart:
trend strength and confidence are 0 and, 50 being below all three default
thresholds, every crossing is `none`. -/
theorem C5_constant_series_witness :
    (2 ≤ ([((0 : ℚ), 50), (86400, 50)] : List (ℚ × ℚ)).length ∧
      (50 : ℚ) < defaultConfig.warning_threshold ∧
      (50 : ℚ) < defaultConfig.critical_threshold ∧
      (50 : ℚ) < defaultConfig.capacity_threshold) ∧
    (forecastLinear defaultConfig [((0 : ℚ), 50), (86400, 50)] 3).map
        ForecastResult.trend_strength = some 0 ∧
    (forecastLinear defaultConfig [((0 : ℚ), 50), (86400, 50)] 3).map
        ForecastResult.forecast_confidence = some 0 ∧
    (forecastLinear defaultConfig [((0 : ℚ), 50), (86400, 50)] 3).map
        ForecastResult.days_to_warning = some none ∧
    (forecastLinear defaultConfig [((0 : ℚ), 50), (86400, 50)] 3).map
        ForecastResult.days_to_critical = some none ∧
    (forecastLinear defaultConfig [((0 : ℚ), 50), (86400, 50)] 3).map
        ForecastResult.days_to_capacity = some none := by
  have h := C5_constant_series defaultConfig [((0 : ℚ), 50), (86400, 50)] 3 50
    (by decide) (by decide) (by decide)
  have hw : (50 : ℚ) < defaultConfig.warning_threshold := by norm_num [defaultConfig]
  have hcr : (50 : ℚ) < defaultConfig.critical_threshold := by norm_num [defaultConfig]
  have hcap : (50 : ℚ) < defaultConfig.capacity_threshold := by norm_num [defaultConfig]
  exact ⟨⟨by decide, hw, hcr, hcap⟩, h.1, h.2.1, h.2.2.1 hw, h.2.2.2.1 hcr, h.2.2.2.2 hcap⟩
